import Mathlib

/-!
Verification of the geny backend core against its specification.

The definitions below are shallow embeddings of the Python source:

* `RateLimiter` embeds the sliding-window limiter of `backend/main.py`
  (class `RateLimiter`, lines 218-277).
* `CircuitBreaker` and `callGemini` embed `geny/gemini_api.py`
  (class `CircuitBreaker` and `_call_gemini` / `generate_reply`).
* `appendTrim` embeds the bounded-sequence append-then-trim pattern of
  `backend/main.py` (diary, cap 1000; feelings, cap 500).
* `getVirtualAge` embeds `GenyBrain.get_virtual_age` of `geny/geny_brain.py`.
* `chatHandler` embeds the `/chat` endpoint of `backend/main.py`
  (default path: no inline web search, no RAG augmentation).

Timestamps are rational numbers (Python floats from `time.time()`);
machine integers are `Int`/`Nat`.
-/

namespace Geny

/-! ## Rate limiter (`backend/main.py`, class `RateLimiter`) -/

/-- State of the sliding-window limiter: configured `limit` and `window`
(seconds), and the per-key map of admission-timestamp deques
(`_hits_by_key`), oldest first.  The Python `_key` helper maps a scope to
itself in production (the pytest isolation suffix is an operational,
test-only concern), so keys here are the scope strings. -/
structure RateLimiter where
  limit : Int
  window : ℚ
  hits : String → List ℚ

/-- A limiter as constructed by `RateLimiter(limit, window_seconds)`:
every deque starts empty. -/
def RateLimiter.mk0 (limit : Int) (window : ℚ) : RateLimiter :=
  ⟨limit, window, fun _ => []⟩

/-- `RateLimiter._prune`: drop timestamps from the front of the deque while
they are older than `now - window` (`while dq and dq[0] < cutoff:
dq.popleft()`). -/
def prune (window : ℚ) (dq : List ℚ) (now : ℚ) : List ℚ :=
  dq.dropWhile (fun t => t < now - window)

/-- Replace one key's deque in the hits map. -/
def RateLimiter.setKey (rl : RateLimiter) (key : String) (dq : List ℚ) :
    RateLimiter :=
  ⟨rl.limit, rl.window, fun k => if k = key then dq else rl.hits k⟩

/-- `RateLimiter.allow(scope)`: if `limit <= 0` always allow without touching
state; otherwise prune the scope's deque at `now`, reject (leaving only the
prune) when the pruned length has reached `limit`, else append `now` and
admit.  Returns the decision and the updated limiter. -/
def RateLimiter.allow (rl : RateLimiter) (scope : String) (now : ℚ) :
    Bool × RateLimiter :=
  if rl.limit ≤ 0 then (true, rl)
  else
    let dq := prune rl.window (rl.hits scope) now
    if rl.limit ≤ (dq.length : Int) then (false, rl.setKey scope dq)
    else (true, rl.setKey scope (dq ++ [now]))

/-- The dictionary returned by `RateLimiter.stats(scope)`. -/
structure RLStats where
  limit : Int
  count : Nat
  window_seconds : ℚ
  reset_in_seconds : Int
  deriving DecidableEq, Repr

/-- `RateLimiter.stats(scope)`: prune the scope's deque at `now`, report the
remaining count and the seconds until the oldest retained timestamp leaves
the window (`int(...)` truncates the non-negative float, i.e. floor). -/
def RateLimiter.stats (rl : RateLimiter) (scope : String) (now : ℚ) :
    RLStats × RateLimiter :=
  let dq := prune rl.window (rl.hits scope) now
  let reset_in : ℚ :=
    match dq with
    | [] => 0
    | t :: _ => max 0 (rl.window - (now - t))
  (⟨rl.limit, dq.length, rl.window, ⌊reset_in⌋⟩, rl.setKey scope dq)

/-- Run a sequence of `allow` calls on one scope at the given (successive)
times; returns the final limiter and the timestamps of the admitted calls,
in call order. -/
def RateLimiter.allowRun (scope : String) :
    List ℚ → RateLimiter → RateLimiter × List ℚ
  | [], rl => (rl, [])
  | t :: ts, rl =>
    ((RateLimiter.allowRun scope ts (rl.allow scope t).2).1,
      (if (rl.allow scope t).1 then [t] else []) ++
        (RateLimiter.allowRun scope ts (rl.allow scope t).2).2)

/-- Membership test for the trailing half-open window `(a, a + w]`. -/
def inWin (a w u : ℚ) : Bool := decide (a < u ∧ u ≤ a + w)

theorem setKey_hits_self (rl : RateLimiter) (s : String) (dq : List ℚ) :
    (rl.setKey s dq).hits s = dq := by
  simp [RateLimiter.setKey]

theorem setKey_limit (rl : RateLimiter) (s : String) (dq : List ℚ) :
    (rl.setKey s dq).limit = rl.limit := rfl

theorem setKey_window (rl : RateLimiter) (s : String) (dq : List ℚ) :
    (rl.setKey s dq).window = rl.window := rfl

theorem prune_sublist (w : ℚ) (dq : List ℚ) (now : ℚ) :
    (prune w dq now).Sublist dq :=
  List.dropWhile_sublist _

theorem length_prune_le (w : ℚ) (dq : List ℚ) (now : ℚ) :
    (prune w dq now).length ≤ dq.length :=
  (prune_sublist w dq now).length_le

theorem prune_decomp (w : ℚ) (dq : List ℚ) (now : ℚ) :
    ∃ dropped, dq = dropped ++ prune w dq now ∧
      ∀ u ∈ dropped, u < now - w := by
  refine ⟨dq.takeWhile (fun t => t < now - w),
    (List.takeWhile_append_dropWhile _ _).symm, ?_⟩
  intro u hu
  simpa using List.mem_takeWhile_imp hu

theorem countP_prune_eq (w : ℚ) (dq : List ℚ) (now a : ℚ) (h : now ≤ a + w) :
    dq.countP (inWin a w) = (prune w dq now).countP (inWin a w) := by
  obtain ⟨dropped, hdec, hlt⟩ := prune_decomp w dq now
  conv_lhs => rw [hdec]
  rw [List.countP_append]
  have hz : dropped.countP (inWin a w) = 0 := by
    rw [List.countP_eq_zero]
    intro u hu
    have h1 := hlt u hu
    simp only [inWin, decide_eq_true_eq, not_and]
    intro ha
    linarith
  omega

theorem allowRun_admitted_mem (scope : String) :
    ∀ (times : List ℚ) (rl : RateLimiter) (u : ℚ),
      u ∈ (rl.allowRun scope times).2 → u ∈ times := by
  intro times
  induction times with
  | nil =>
    intro rl u h
    simp [RateLimiter.allowRun] at h
  | cons t ts ih =>
    intro rl u h
    simp only [RateLimiter.allowRun] at h
    rcases List.mem_append.mp h with h1 | h2
    · rcases hb : (rl.allow scope t).1 with _ | _ <;> rw [hb] at h1
      · simp at h1
      · simp at h1
        exact h1 ▸ List.mem_cons_self t ts
    · exact List.mem_cons_of_mem t (ih _ u h2)

theorem allowRun_inv (window : ℚ) (limit : Int)
    (hl : 0 < limit) (scope : String) :
    ∀ (times : List ℚ), times.Pairwise (· ≤ ·) →
    ∀ (rl : RateLimiter), rl.limit = limit → rl.window = window →
      (rl.hits scope).Pairwise (· ≤ ·) →
      (rl.hits scope).length ≤ limit.toNat →
      (∀ u ∈ rl.hits scope, ∀ t ∈ times, u ≤ t) →
      (∀ a : ℚ,
        (rl.hits scope).countP (inWin a window) +
          ((rl.allowRun scope times).2.countP (inWin a window)) ≤ limit.toNat) ∧
      ((rl.allowRun scope times).1.hits scope).Pairwise (· ≤ ·) ∧
      ((rl.allowRun scope times).1.hits scope).length ≤ limit.toNat := by
  intro times
  induction times with
  | nil =>
    intro hsort rl hlim hwin hs hlen hle
    refine ⟨fun a => ?_, hs, hlen⟩
    simp only [RateLimiter.allowRun, List.countP_nil, Nat.add_zero]
    exact le_trans (List.countP_le_length _) hlen
  | cons t ts ih =>
    intro hsort rl hlim hwin hs hlen hle
    rw [List.pairwise_cons] at hsort
    obtain ⟨hthead, hsortts⟩ := hsort
    have hnle : ¬ rl.limit ≤ 0 := by rw [hlim]; omega
    -- the pruned deque at time t
    set dq := prune rl.window (rl.hits scope) t with hdq
    have hdqsub : dq.Sublist (rl.hits scope) := prune_sublist _ _ _
    have hdqsorted : dq.Pairwise (· ≤ ·) := hs.sublist hdqsub
    have hdqlen : dq.length ≤ (rl.hits scope).length := hdqsub.length_le
    have hdqle : ∀ u ∈ dq, ∀ s ∈ ts, u ≤ s := by
      intro u hu s hsmem
      exact hle u (hdqsub.subset hu) s (List.mem_cons_of_mem t hsmem)
    have hdqle_t : ∀ u ∈ dq, u ≤ t := by
      intro u hu
      exact hle u (hdqsub.subset hu) t (List.mem_cons_self t ts)
    -- dropped prefix lies strictly below the cutoff
    obtain ⟨dropped, hdec, hdrop⟩ := prune_decomp rl.window (rl.hits scope) t
    by_cases hc : rl.limit ≤ (dq.length : Int)
    · -- rejection: state becomes the pruned deque, nothing admitted now
      have hstep : rl.allow scope t = (false, rl.setKey scope dq) := by
        rw [RateLimiter.allow, if_neg hnle]
        simp only [← hdq]
        rw [if_pos hc]
      have hrecur := ih hsortts (rl.setKey scope dq)
        (by rw [setKey_limit, hlim]) (by rw [setKey_window, hwin])
        (by rw [setKey_hits_self]; exact hdqsorted)
        (by rw [setKey_hits_self]; exact le_trans hdqlen hlen)
        (by rw [setKey_hits_self]; exact hdqle)
      refine ⟨fun a => ?_, ?_, ?_⟩
      · simp only [RateLimiter.allowRun, hstep, Bool.false_eq_true, if_neg,
          List.nil_append, ite_false]
        by_cases hcase : t ≤ a + window
        · have heq : (rl.hits scope).countP (inWin a window) =
              dq.countP (inWin a window) := by
            rw [hdq, hwin]
            exact countP_prune_eq window (rl.hits scope) t a hcase
          rw [heq]
          have := (hrecur.1 a)
          rwa [setKey_hits_self] at this
        · push_neg at hcase
          have hz : ((rl.setKey scope dq).allowRun scope ts).2.countP
              (inWin a window) = 0 := by
            rw [List.countP_eq_zero]
            intro u hu
            have hmem := allowRun_admitted_mem scope ts _ u hu
            have htu : t ≤ u := hthead u hmem
            simp only [inWin, decide_eq_true_eq, not_and]
            intro _
            linarith
          rw [hz, Nat.add_zero]
          exact le_trans (List.countP_le_length _) hlen
      · simpa only [RateLimiter.allowRun, hstep] using hrecur.2.1
      · simpa only [RateLimiter.allowRun, hstep] using hrecur.2.2
    · -- admission: t is appended to the pruned deque
      push_neg at hc
      have hstep : rl.allow scope t = (true, rl.setKey scope (dq ++ [t])) := by
        rw [RateLimiter.allow, if_neg hnle]
        simp only [← hdq]
        rw [if_neg (not_le.mpr hc)]
      have hlen' : (dq ++ [t]).length ≤ limit.toNat := by
        rw [List.length_append, List.length_singleton]
        rw [hlim] at hc
        omega
      have hsorted' : (dq ++ [t]).Pairwise (· ≤ ·) := by
        rw [List.pairwise_append]
        refine ⟨hdqsorted, List.pairwise_singleton _ _, ?_⟩
        intro u hu s hsmem
        rw [List.mem_singleton] at hsmem
        exact hsmem ▸ hdqle_t u hu
      have hle' : ∀ u ∈ dq ++ [t], ∀ s ∈ ts, u ≤ s := by
        intro u hu s hsmem
        rcases List.mem_append.mp hu with h1 | h1
        · exact hdqle u h1 s hsmem
        · rw [List.mem_singleton] at h1
          exact h1 ▸ hthead s hsmem
      have hrecur := ih hsortts (rl.setKey scope (dq ++ [t]))
        (by rw [setKey_limit, hlim]) (by rw [setKey_window, hwin])
        (by rw [setKey_hits_self]; exact hsorted')
        (by rw [setKey_hits_self]; exact hlen')
        (by rw [setKey_hits_self]; exact hle')
      refine ⟨fun a => ?_, ?_, ?_⟩
      · simp only [RateLimiter.allowRun, hstep, if_pos, List.singleton_append,
          List.countP_cons]
        by_cases hcase : t ≤ a + window
        · have heq : (rl.hits scope).countP (inWin a window) =
              dq.countP (inWin a window) := by
            rw [hdq, hwin]
            exact countP_prune_eq window (rl.hits scope) t a hcase
          have hkey := hrecur.1 a
          rw [setKey_hits_self, List.countP_append, List.countP_singleton] at hkey
          rw [heq]
          omega
        · push_neg at hcase
          have hz : ((rl.setKey scope (dq ++ [t])).allowRun scope ts).2.countP
              (inWin a window) = 0 := by
            rw [List.countP_eq_zero]
            intro u hu
            have hmem := allowRun_admitted_mem scope ts _ u hu
            have htu : t ≤ u := hthead u hmem
            simp only [inWin, decide_eq_true_eq, not_and]
            intro _
            linarith
          have hzt : inWin a window t = false := by
            simp only [inWin, decide_eq_false_iff_not, not_and]
            intro _
            linarith
          rw [hz, hzt]
          simp only [if_false, Bool.false_eq_true, Nat.add_zero]
          exact le_trans (List.countP_le_length _) hlen
      · simpa only [RateLimiter.allowRun, hstep] using hrecur.2.1
      · simpa only [RateLimiter.allowRun, hstep] using hrecur.2.2

theorem allow_spec (rl : RateLimiter) (scope : String) (now : ℚ)
    (h : 0 < rl.limit) :
    ((rl.allow scope now).1 = true ↔
      (prune rl.window (rl.hits scope) now).length < rl.limit.toNat) ∧
    ((rl.allow scope now).1 = true →
      (rl.allow scope now).2 =
        rl.setKey scope (prune rl.window (rl.hits scope) now ++ [now])) ∧
    ((rl.allow scope now).1 = false →
      (rl.allow scope now).2 =
        rl.setKey scope (prune rl.window (rl.hits scope) now)) := by
  have hnle : ¬ rl.limit ≤ 0 := by omega
  rw [RateLimiter.allow, if_neg hnle]
  by_cases hc : rl.limit ≤ ((prune rl.window (rl.hits scope) now).length : Int)
  · rw [if_pos hc]
    refine ⟨⟨fun hh => Bool.noConfusion hh, fun hh => absurd hh (by omega)⟩,
      fun hh => Bool.noConfusion hh, fun _ => rfl⟩
  · rw [if_neg hc]
    push_neg at hc
    refine ⟨⟨fun _ => by omega, fun _ => rfl⟩,
      fun _ => rfl, fun hh => Bool.noConfusion hh⟩

/-- C1: for every scope and every non-decreasing sequence of call times,
with a positive configured limit, `allow` first purges timestamps older
than `now - window`, then appends the current timestamp and returns `true`
iff the purged count is strictly below `limit`, and returns `false` with
only the purge otherwise; consequently at most `limit` calls are admitted
within any trailing window `(a, a + window]`, and `stats` reports a count
never exceeding `limit` after its purge.  Scenario: with limit 4 and window
3600, of five `allow("/chat")` calls the first four are admitted, the fifth
is rejected, and `stats("/chat")` then reports count 4, limit 4. -/
theorem C1_rate_limiter_sliding_window
    (limit : Int) (window : ℚ) (scope : String) (times : List ℚ)
    (hl : 0 < limit) (hsort : times.Pairwise (· ≤ ·)) :
    (∀ (rl : RateLimiter) (now : ℚ), 0 < rl.limit →
      (((rl.allow scope now).1 = true ↔
        (prune rl.window (rl.hits scope) now).length < rl.limit.toNat) ∧
       ((rl.allow scope now).1 = true →
        (rl.allow scope now).2 =
          rl.setKey scope (prune rl.window (rl.hits scope) now ++ [now])) ∧
       ((rl.allow scope now).1 = false →
        (rl.allow scope now).2 =
          rl.setKey scope (prune rl.window (rl.hits scope) now)))) ∧
    (∀ a : ℚ,
      ((RateLimiter.mk0 limit window).allowRun scope times).2.countP
        (inWin a window) ≤ limit.toNat) ∧
    (∀ now : ℚ,
      (((RateLimiter.mk0 limit window).allowRun scope times).1.stats
        scope now).1.count ≤ limit.toNat) ∧
    ((((RateLimiter.mk0 4 3600).allowRun "/chat" [0, 1, 2, 3, 4]).2 =
        [0, 1, 2, 3]) ∧
     ((((RateLimiter.mk0 4 3600).allowRun "/chat"
          [0, 1, 2, 3, 4]).1.stats "/chat" 4).1.count = 4 ∧
      (((RateLimiter.mk0 4 3600).allowRun "/chat"
          [0, 1, 2, 3, 4]).1.stats "/chat" 4).1.limit = 4)) := by
  have hinv := allowRun_inv window limit hl scope times hsort
    (RateLimiter.mk0 limit window) rfl rfl (by simp [RateLimiter.mk0])
    (by simp [RateLimiter.mk0]) (by simp [RateLimiter.mk0])
  refine ⟨fun rl now h => allow_spec rl scope now h, ?_, ?_, ?_, ?_, ?_⟩
  · intro a
    have hb := hinv.1 a
    simpa [RateLimiter.mk0] using hb
  · intro now
    have hlen := hinv.2.2
    simp only [RateLimiter.stats]
    exact le_trans (length_prune_le _ _ _) hlen
  · norm_num [RateLimiter.allowRun, RateLimiter.allow, prune,
      RateLimiter.setKey, RateLimiter.mk0, List.dropWhile]
  · norm_num [RateLimiter.allowRun, RateLimiter.allow, RateLimiter.stats,
      prune, RateLimiter.setKey, RateLimiter.mk0, List.dropWhile]
  · norm_num [RateLimiter.allowRun, RateLimiter.allow, RateLimiter.stats,
      prune, RateLimiter.setKey, RateLimiter.mk0, List.dropWhile]

/-- Witness for C1: the concrete spec scenario, obtained by applying
`C1_rate_limiter_sliding_window` at limit 4, window 3600, scope "/chat",
call times 0,1,2,3,4. -/
theorem C1_rate_limiter_sliding_window_witness :
    (((RateLimiter.mk0 4 3600).allowRun "/chat" [0, 1, 2, 3, 4]).2 =
        [0, 1, 2, 3]) ∧
    ((((RateLimiter.mk0 4 3600).allowRun "/chat"
         [0, 1, 2, 3, 4]).1.stats "/chat" 4).1.count = 4 ∧
     (((RateLimiter.mk0 4 3600).allowRun "/chat"
         [0, 1, 2, 3, 4]).1.stats "/chat" 4).1.limit = 4) :=
  (C1_rate_limiter_sliding_window 4 3600 "/chat" [0, 1, 2, 3, 4]
    (by norm_num) (by norm_num [List.pairwise_cons])).2.2.2

/-! ## Circuit breaker (`geny/gemini_api.py`, class `CircuitBreaker`) -/

/-- Breaker states; `OPEN` is called `opened` because `open` is a Lean
keyword, `HALF` ("half_open") is `halfOpen`. -/
inductive CBState
  | closed
  | opened
  | halfOpen
  deriving DecidableEq, Repr

/-- `CircuitBreaker.__init__` state: configuration plus `_state`,
`_fail_count`, `_opened_at`. -/
structure CircuitBreaker where
  fail_threshold : Nat
  recovery_timeout : ℚ
  state : CBState
  fail_count : Nat
  opened_at : ℚ
  deriving DecidableEq, Repr

/-- A breaker as constructed: CLOSED, zero failures, `_opened_at = 0`. -/
def CircuitBreaker.mk0 (fail_threshold : Nat) (recovery_timeout : ℚ) :
    CircuitBreaker :=
  ⟨fail_threshold, recovery_timeout, CBState.closed, 0, 0⟩

/-- `record_success`: reset the failure counter and close the circuit. -/
def CircuitBreaker.record_success (cb : CircuitBreaker) : CircuitBreaker :=
  { cb with fail_count := 0, state := CBState.closed }

/-- `record_failure`: increment the counter; once it reaches
`fail_threshold` the breaker opens and `_opened_at` is set to the current
time. -/
def CircuitBreaker.record_failure (cb : CircuitBreaker) (now : ℚ) :
    CircuitBreaker :=
  if cb.fail_threshold ≤ cb.fail_count + 1 then
    { cb with fail_count := cb.fail_count + 1, state := CBState.opened,
              opened_at := now }
  else { cb with fail_count := cb.fail_count + 1 }

/-- `allow_request`: when OPEN, admit (moving to HALF_OPEN) only once
strictly more than `recovery_timeout` has elapsed since opening; any other
state admits.  Returns the decision and the (possibly transitioned)
breaker. -/
def CircuitBreaker.allow_request (cb : CircuitBreaker) (now : ℚ) :
    Bool × CircuitBreaker :=
  if cb.state = CBState.opened then
    if cb.recovery_timeout < now - cb.opened_at then
      (true, { cb with state := CBState.halfOpen })
    else (false, cb)
  else (true, cb)

/-- Breaker events: a recorded success, a recorded failure at a given
clock value, or an `allow_request` check at a given clock value. -/
inductive CBEvent
  | succeed
  | fail (t : ℚ)
  | check (t : ℚ)

/-- One breaker transition per event. -/
def CircuitBreaker.step (cb : CircuitBreaker) : CBEvent → CircuitBreaker
  | CBEvent.succeed => cb.record_success
  | CBEvent.fail t => cb.record_failure t
  | CBEvent.check t => (cb.allow_request t).2

/-- Fold a sequence of breaker events. -/
def CircuitBreaker.runEvents (cb : CircuitBreaker) (evs : List CBEvent) :
    CircuitBreaker :=
  evs.foldl CircuitBreaker.step cb

/-- Reachability invariant: whenever the breaker is OPEN or HALF_OPEN its
failure counter has reached the threshold (a success resets both). -/
def CBInv (cb : CircuitBreaker) : Prop :=
  cb.state = CBState.opened ∨ cb.state = CBState.halfOpen →
    cb.fail_threshold ≤ cb.fail_count

theorem cbInv_step (cb : CircuitBreaker) (hinv : CBInv cb) (e : CBEvent) :
    CBInv (cb.step e) := by
  cases e with
  | succeed =>
    intro hst
    rcases hst with h | h <;> simp [CircuitBreaker.step,
      CircuitBreaker.record_success] at h
  | fail t =>
    intro hst
    simp only [CircuitBreaker.step, CircuitBreaker.record_failure] at hst ⊢
    by_cases hc : cb.fail_threshold ≤ cb.fail_count + 1
    · rw [if_pos hc]
      dsimp only
      omega
    · rw [if_neg hc] at hst ⊢
      dsimp only at hst ⊢
      have := hinv hst
      omega
  | check t =>
    intro hst
    simp only [CircuitBreaker.step, CircuitBreaker.allow_request] at hst ⊢
    by_cases hs : cb.state = CBState.opened
    · rw [if_pos hs] at hst ⊢
      by_cases ht : cb.recovery_timeout < t - cb.opened_at
      · rw [if_pos ht] at hst ⊢
        dsimp only at hst ⊢
        exact hinv (Or.inl hs)
      · rw [if_neg ht] at hst ⊢
        dsimp only at hst ⊢
        exact hinv (Or.inl hs)
    · rw [if_neg hs] at hst ⊢
      dsimp only at hst ⊢
      exact hinv hst

theorem cbInv_run (cb : CircuitBreaker) (hinv : CBInv cb)
    (evs : List CBEvent) : CBInv (cb.runEvents evs) := by
  induction evs generalizing cb with
  | nil => exact hinv
  | cons e es ih =>
    exact ih (cb.step e) (cbInv_step cb hinv e)

theorem cbInv_mk0 (F : Nat) (R : ℚ) : CBInv (CircuitBreaker.mk0 F R) := by
  intro hst
  rcases hst with h | h <;> simp [CircuitBreaker.mk0] at h

theorem record_failure_fail_threshold (cb : CircuitBreaker) (t : ℚ) :
    (cb.record_failure t).fail_threshold = cb.fail_threshold := by
  simp only [CircuitBreaker.record_failure]
  split <;> rfl

theorem foldl_record_failure_count (cb : CircuitBreaker) (ts : List ℚ) :
    ((ts.foldl CircuitBreaker.record_failure cb).fail_count =
      cb.fail_count + ts.length) ∧
    ((ts.foldl CircuitBreaker.record_failure cb).fail_threshold =
      cb.fail_threshold) := by
  induction ts generalizing cb with
  | nil => simp
  | cons t ts ih =>
    have h := ih (cb.record_failure t)
    simp only [List.foldl_cons, List.length_cons]
    refine ⟨?_, ?_⟩
    · rw [h.1]
      have : (cb.record_failure t).fail_count = cb.fail_count + 1 := by
        simp only [CircuitBreaker.record_failure]
        split <;> rfl
      omega
    · rw [h.2, record_failure_fail_threshold]

/-! ## Upstream client gate (`geny/gemini_api.py`, `_call_gemini` and
`generate_reply`) -/

/-- Character-list prefix test (helper for `strContains`). -/
def charsPrefixOf : List Char → List Char → Bool
  | [], _ => true
  | _ :: _, [] => false
  | c :: cs, d :: ds => c = d && charsPrefixOf cs ds

/-- Character-list infix test (helper for `strContains`). -/
def charsInfixOf (needle : List Char) : List Char → Bool
  | [] => charsPrefixOf needle []
  | d :: ds => charsPrefixOf needle (d :: ds) || charsInfixOf needle ds

/-- Python's `needle in hay` substring test. -/
def strContains (hay needle : String) : Bool :=
  charsInfixOf needle.data hay.data

/-- The auth-failure classification of `_call_gemini`:
`"401" in err_text or "API key not valid" in err_text or "Unauthorized" in
err_text`. -/
def isAuthErrorText (msg : String) : Bool :=
  strContains msg "401" || strContains msg "API key not valid" ||
    strContains msg "Unauthorized"

/-- The fixed missing-credential error string. -/
def missingKeyMsg : String :=
  "[Gemini error] Missing API key. Set GENAI_API_KEY or configure Secret Manager."

/-- The fixed fail-fast error string returned while the breaker is open. -/
def circuitOpenMsg : String :=
  "[Gemini error] Circuit open - upstream unavailable"

/-- The retries-exhausted error string
(`f"[Gemini error] Failed after {max_retries} attempts: {last_err}"`). -/
def exhaustedMsg (maxRetries : Nat) (lastErr : String) : String :=
  "[Gemini error] Failed after " ++ toString maxRetries ++ " attempts: " ++
    lastErr

/-- Outcome of one blocking upstream attempt, as observed by
`_call_gemini`: a reply text, an `asyncio.TimeoutError` (whose `str` is
empty), or some other exception with message `msg`. -/
inductive AttemptOutcome
  | success (text : String)
  | timedOut
  | raised (msg : String)
  deriving DecidableEq, Repr

/-- Result of a gate call: the returned string, the breaker afterwards,
and how many upstream attempts were actually made. -/
structure CallResult where
  reply : String
  breaker : CircuitBreaker
  attempts : Nat
  deriving DecidableEq, Repr

/-- The retry loop of `_call_gemini` (`for attempt in range(max_retries)`).
The oracle supplies, per attempt, the wall-clock time at which the outcome
is recorded and the outcome itself; `remaining` counts retries left and
`made` the attempts already made.  A success records a breaker success and
returns the text; an auth-classified exception records a failure and
returns the `[Gemini 401]`-prefixed message without further retries; a
timeout or other exception records a failure and continues (after a
jittered backoff sleep, irrelevant to state).  Exhaustion returns the
`[Gemini error] Failed after ...` message with the last error text. -/
def callLoop (maxRetries : Nat) :
    Nat → List (ℚ × AttemptOutcome) → Nat → CircuitBreaker → String →
      CallResult
  | 0, _, made, cb, lastErr => ⟨exhaustedMsg maxRetries lastErr, cb, made⟩
  | _ + 1, [], made, cb, lastErr => ⟨exhaustedMsg maxRetries lastErr, cb, made⟩
  | r + 1, (t, o) :: rest, made, cb, _lastErr =>
    match o with
    | AttemptOutcome.success text => ⟨text, cb.record_success, made + 1⟩
    | AttemptOutcome.timedOut =>
      callLoop maxRetries r rest (made + 1) (cb.record_failure t) ""
    | AttemptOutcome.raised msg =>
      if isAuthErrorText msg then
        ⟨"[Gemini 401] " ++ msg, cb.record_failure t, made + 1⟩
      else callLoop maxRetries r rest (made + 1) (cb.record_failure t) msg
  termination_by r => r

/-- `_call_gemini(prompt, max_retries, timeout)`: fail immediately when no
API key is configured; fail fast (before any attempt, without consuming a
retry) when the breaker rejects the request; otherwise run the retry loop.
`hasKey` models the truthiness of the module-level `API_KEY`; the prompt
itself only feeds the upstream client and is abstracted by the oracle. -/
def callGemini (hasKey : Bool) (cb : CircuitBreaker) (now : ℚ)
    (maxRetries : Nat) (oracle : List (ℚ × AttemptOutcome)) : CallResult :=
  if ¬hasKey then ⟨missingKeyMsg, cb, 0⟩
  else
    let ar := cb.allow_request now
    if ¬ar.1 then ⟨circuitOpenMsg, ar.2, 0⟩
    else callLoop maxRetries maxRetries oracle 0 ar.2 "None"

/-- ASCII whitespace, for the Python `str.strip` model. -/
def isSpaceChar (c : Char) : Bool :=
  c = ' ' || c = '\t' || c = '\n' || c = '\r'

/-- Python `str.strip()`: drop whitespace from both ends. -/
def trimChars (l : List Char) : List Char :=
  ((l.dropWhile isSpaceChar).reverse.dropWhile isSpaceChar).reverse

/-- Python `str.splitlines()` restricted to newline separators. -/
def splitLinesChars : List Char → List (List Char)
  | [] => [[]]
  | c :: cs =>
    if c = '\n' then [] :: splitLinesChars cs
    else
      match splitLinesChars cs with
      | [] => [[c]]
      | l :: ls => (c :: l) :: ls

/-- The offline fallback of `generate_reply`: strip each line of the
prompt, keep the non-empty ones, echo the last (or the whole prompt when
none remain) inside a fixed friendly sentence. -/
def localEchoReply (prompt : String) : String :=
  let parts := ((splitLinesChars prompt.data).map trimChars).filter
    (fun p => ¬p = [])
  let userMsg :=
    match parts.getLast? with
    | some cs => String.mk cs
    | none => prompt
  "I think... " ++ userMsg ++
    " I'm not connected to Gemini right now, but I'm here to listen and help! What would you like to talk about?"

/-- `generate_reply(prompt)`: with an API key configured it defers to
`_call_gemini`; without one it returns the local echo fallback, touching
neither the network nor the breaker. -/
def generateReply (hasKey : Bool) (cb : CircuitBreaker) (now : ℚ)
    (maxRetries : Nat) (oracle : List (ℚ × AttemptOutcome))
    (prompt : String) : CallResult :=
  if hasKey then callGemini hasKey cb now maxRetries oracle
  else ⟨localEchoReply prompt, cb, 0⟩

/-- C2: recording `fail_threshold` consecutive failures (no intervening
success) leaves the breaker OPEN with `_opened_at` stamped by the last
failure; and any `_call_gemini` call made while the breaker is OPEN and at
most `recovery_timeout` after it opened returns the fixed circuit-open
error immediately: the breaker is untouched and zero upstream attempts are
made, so no retry is consumed. -/
theorem C2_breaker_opens_and_fails_fast :
    (∀ (cb : CircuitBreaker) (init : List ℚ) (tlast : ℚ),
      cb.fail_threshold ≤ cb.fail_count + init.length + 1 →
      (((init ++ [tlast]).foldl CircuitBreaker.record_failure cb).state =
         CBState.opened ∧
       ((init ++ [tlast]).foldl CircuitBreaker.record_failure cb).opened_at =
         tlast)) ∧
    (∀ (cb : CircuitBreaker) (now : ℚ) (mr : Nat)
       (oracle : List (ℚ × AttemptOutcome)),
      cb.state = CBState.opened →
      now - cb.opened_at ≤ cb.recovery_timeout →
      callGemini true cb now mr oracle = ⟨circuitOpenMsg, cb, 0⟩) := by
  constructor
  · intro cb init tlast hcnt
    rw [List.foldl_append]
    have hfold := foldl_record_failure_count cb init
    simp only [List.foldl_cons, List.foldl_nil]
    rw [CircuitBreaker.record_failure, if_pos (by omega)]
    exact ⟨rfl, rfl⟩
  · intro cb now mr oracle hst hle
    have har : cb.allow_request now = (false, cb) := by
      rw [CircuitBreaker.allow_request, if_pos hst,
        if_neg (not_lt.mpr (by linarith))]
    simp only [callGemini, har, Bool.not_true, Bool.not_false]
    norm_num

/-- Witness for C2: from a fresh breaker with `fail_threshold = 3`, three
consecutive failures at times 1, 2, 3 open the breaker with
`_opened_at = 3`; a later call at time 10 (within the 30-second recovery
timeout) returns the circuit-open error with no upstream attempt. -/
theorem C2_breaker_opens_and_fails_fast_witness :
    ((([(1 : ℚ), 2] ++ [3]).foldl CircuitBreaker.record_failure
        (CircuitBreaker.mk0 3 30)).state = CBState.opened ∧
     (([(1 : ℚ), 2] ++ [3]).foldl CircuitBreaker.record_failure
        (CircuitBreaker.mk0 3 30)).opened_at = 3) ∧
    callGemini true ⟨3, 30, CBState.opened, 3, 3⟩ 10 3 [] =
      ⟨circuitOpenMsg, ⟨3, 30, CBState.opened, 3, 3⟩, 0⟩ :=
  ⟨(C2_breaker_opens_and_fails_fast).1 (CircuitBreaker.mk0 3 30) [1, 2] 3
      (by simp [CircuitBreaker.mk0]),
   (C2_breaker_opens_and_fails_fast).2 ⟨3, 30, CBState.opened, 3, 3⟩ 10 3 []
      rfl (by norm_num)⟩

/-- C3: once strictly more than `recovery_timeout` has elapsed since the
breaker opened, `allow_request` admits exactly one trial, transitioning to
HALF_OPEN; from HALF_OPEN a recorded success closes the breaker and resets
the counter to zero, while a recorded failure (the counter having reached
the threshold, an invariant of every reachable OPEN/HALF_OPEN state)
reopens it with a freshly stamped `_opened_at`, so that a further request
within the new recovery window is rejected again. -/
theorem C3_half_open_trial :
    (∀ (cb : CircuitBreaker) (now : ℚ),
      cb.state = CBState.opened →
      cb.recovery_timeout < now - cb.opened_at →
      cb.allow_request now = (true, { cb with state := CBState.halfOpen })) ∧
    (∀ cb : CircuitBreaker,
      cb.state = CBState.halfOpen →
      cb.record_success.state = CBState.closed ∧
      cb.record_success.fail_count = 0) ∧
    (∀ (cb : CircuitBreaker) (t : ℚ),
      cb.state = CBState.halfOpen →
      cb.fail_threshold ≤ cb.fail_count →
      (cb.record_failure t).state = CBState.opened ∧
      (cb.record_failure t).opened_at = t) ∧
    (∀ (evs : List CBEvent) (F : Nat) (R : ℚ),
      CBInv ((CircuitBreaker.mk0 F R).runEvents evs)) ∧
    (∀ (cb : CircuitBreaker) (now t now2 : ℚ),
      cb.state = CBState.opened →
      cb.recovery_timeout < now - cb.opened_at →
      cb.fail_threshold ≤ cb.fail_count →
      now2 - t ≤ cb.recovery_timeout →
      (((cb.allow_request now).2.record_failure t).allow_request now2).1 =
        false) := by
  refine ⟨?_, ?_, ?_, ?_, ?_⟩
  · intro cb now hst hlt
    rw [CircuitBreaker.allow_request, if_pos hst, if_pos hlt]
  · intro cb _
    exact ⟨rfl, rfl⟩
  · intro cb t _ hcnt
    rw [CircuitBreaker.record_failure, if_pos (by omega)]
    exact ⟨rfl, rfl⟩
  · intro evs F R
    exact cbInv_run _ (cbInv_mk0 F R) evs
  · intro cb now t now2 hst hlt hcnt hle
    have h1 : cb.allow_request now =
        (true, { cb with state := CBState.halfOpen }) := by
      rw [CircuitBreaker.allow_request, if_pos hst, if_pos hlt]
    rw [h1]
    have h2 : ({ cb with state := CBState.halfOpen }).record_failure t =
        { cb with state := CBState.opened, fail_count := cb.fail_count + 1,
                  opened_at := t } := by
      rw [CircuitBreaker.record_failure, if_pos (by dsimp only; omega)]
    rw [h2, CircuitBreaker.allow_request, if_pos rfl,
      if_neg (not_lt.mpr (by dsimp only; linarith))]

/-- Witness for C3: a breaker ⟨threshold 3, timeout 30, OPEN, count 3,
opened at 0⟩ checked at time 31 admits the half-open trial; a success from
the half-open state closes it with counter 0; a failure at time 31 reopens
it stamped 31, and a request at time 40 is rejected again. -/
theorem C3_half_open_trial_witness :
    (CircuitBreaker.allow_request ⟨3, 30, CBState.opened, 3, 0⟩ 31 =
      (true, ⟨3, 30, CBState.halfOpen, 3, 0⟩)) ∧
    (CircuitBreaker.record_success ⟨3, 30, CBState.halfOpen, 3, 0⟩).state =
      CBState.closed ∧
    (CircuitBreaker.record_success ⟨3, 30, CBState.halfOpen, 3, 0⟩).fail_count
      = 0 ∧
    (CircuitBreaker.record_failure ⟨3, 30, CBState.halfOpen, 3, 0⟩ 31).state =
      CBState.opened ∧
    (CircuitBreaker.record_failure ⟨3, 30, CBState.halfOpen, 3, 0⟩ 31).opened_at
      = 31 ∧
    (((CircuitBreaker.allow_request ⟨3, 30, CBState.opened, 3, 0⟩
        31).2.record_failure 31).allow_request 40).1 = false :=
  ⟨C3_half_open_trial.1 ⟨3, 30, CBState.opened, 3, 0⟩ 31 rfl (by norm_num),
   (C3_half_open_trial.2.1 ⟨3, 30, CBState.halfOpen, 3, 0⟩ rfl).1,
   (C3_half_open_trial.2.1 ⟨3, 30, CBState.halfOpen, 3, 0⟩ rfl).2,
   (C3_half_open_trial.2.2.1 ⟨3, 30, CBState.halfOpen, 3, 0⟩ 31 rfl
      (by norm_num)).1,
   (C3_half_open_trial.2.2.1 ⟨3, 30, CBState.halfOpen, 3, 0⟩ 31 rfl
      (by norm_num)).2,
   C3_half_open_trial.2.2.2.2 ⟨3, 30, CBState.opened, 3, 0⟩ 31 31 40 rfl
      (by norm_num) (by norm_num) (by norm_num)⟩

/-- C7 counterexample: with no API key configured, the public
`generate_reply` does not fail with the missing-credential error — it
returns the friendly local echo ("I think... hello ..."), which is not the
missing-key message and carries no `[Gemini` error marker (the
`_call_gemini` missing-key branch is bypassed entirely, since
`generate_reply` only calls `_call_gemini` when a key is present). -/
theorem C7_counterexample_no_key_returns_echo :
    (generateReply false (CircuitBreaker.mk0 3 30) 0 3 [] "hello").reply =
      "I think... hello I'm not connected to Gemini right now, but I'm here to listen and help! What would you like to talk about?" ∧
    (generateReply false (CircuitBreaker.mk0 3 30) 0 3 [] "hello").reply ≠
      missingKeyMsg ∧
    charsPrefixOf "[Gemini".data
      (generateReply false (CircuitBreaker.mk0 3 30) 0 3 []
        "hello").reply.data = false := by
  refine ⟨by decide, by decide, by decide⟩

/-- C7 (amended): without a credential no network attempt is ever made and
the breaker is never touched: the low-level `_call_gemini` returns the
missing-credential error immediately with zero attempts, while the public
`generate_reply` bypasses it and returns the local echo fallback, likewise
with zero attempts and an unchanged breaker. -/
theorem C7_missing_credential_no_network :
    (∀ (cb : CircuitBreaker) (now : ℚ) (mr : Nat)
       (oracle : List (ℚ × AttemptOutcome)),
      callGemini false cb now mr oracle = ⟨missingKeyMsg, cb, 0⟩) ∧
    (∀ (cb : CircuitBreaker) (now : ℚ) (mr : Nat)
       (oracle : List (ℚ × AttemptOutcome)) (prompt : String),
      generateReply false cb now mr oracle prompt =
        ⟨localEchoReply prompt, cb, 0⟩) := by
  constructor
  · intro cb now mr oracle
    rfl
  · intro cb now mr oracle prompt
    rfl

/-! ## Bounded world-state sequences (`backend/main.py`)

The diary append sites (`/chat` auto-diary, exploration loop,
`/world/diary/add`) all run `d.append(entry); if len(d) > 1000:
d = d[-1000:]` under the brain lock; `/world/feelings/add` does the same
with cap 500.  `appendTrim cap` embeds that append-then-trim step;
`brainDiaryAppend` embeds the untrimmed `w["diary"].append(...)` calls of
`GenyBrain.generate_reply` (geny/geny_brain.py). -/

/-- The Python slice `l[-cap:]`: the `cap` most recent elements. -/
def lastN (cap : Nat) (l : List α) : List α := l.drop (l.length - cap)

/-- Append one entry, then trim to the most recent `cap` when the length
exceeds `cap` (`d.append(e); if len(d) > cap: d = d[-cap:]`). -/
def appendTrim (cap : Nat) (l : List α) (e : α) : List α :=
  if cap < (l ++ [e]).length then lastN cap (l ++ [e]) else l ++ [e]

/-- The untrimmed diary append of `GenyBrain.generate_reply`
(`w["diary"].append({...})`, no cap enforcement). -/
def brainDiaryAppend (l : List α) (e : α) : List α := l ++ [e]

theorem lastN_of_le (cap : Nat) (l : List α) (h : l.length ≤ cap) :
    lastN cap l = l := by
  unfold lastN
  rw [Nat.sub_eq_zero_of_le h, List.drop_zero]

theorem lastN_length (cap : Nat) (l : List α) :
    (lastN cap l).length = min cap l.length := by
  unfold lastN
  rw [List.length_drop]
  omega

theorem appendTrim_eq_lastN (cap : Nat) (l : List α) (e : α) :
    appendTrim cap l e = lastN cap (l ++ [e]) := by
  unfold appendTrim
  by_cases h : cap < (l ++ [e]).length
  · rw [if_pos h]
  · rw [if_neg h]
    push_neg at h
    rw [lastN_of_le cap _ h]

theorem lastN_lastN_append (cap : Nat) (a b : List α) :
    lastN cap (lastN cap a ++ b) = lastN cap (a ++ b) := by
  by_cases h : a.length ≤ cap
  · rw [lastN_of_le cap a h]
  · push_neg at h
    have hsplit : a ++ b =
        a.take (a.length - cap) ++ (a.drop (a.length - cap) ++ b) := by
      rw [← List.append_assoc, List.take_append_drop]
    conv_rhs => rw [lastN, hsplit, List.drop_append_eq_append_drop]
    have htk : (a.take (a.length - cap)).length = a.length - cap := by
      rw [List.length_take]
      omega
    rw [List.drop_eq_nil_of_le (by
      rw [htk, List.length_append, List.length_append,
        List.length_take, List.length_drop]
      omega), List.nil_append]
    unfold lastN
    simp only [List.length_append, List.length_drop, List.length_take]
    congr 1
    omega

theorem foldl_appendTrim (cap : Nat) (es : List α) :
    ∀ l : List α, l.length ≤ cap →
      es.foldl (appendTrim cap) l = lastN cap (l ++ es) := by
  induction es with
  | nil =>
    intro l h
    rw [List.foldl_nil, List.append_nil, lastN_of_le cap l h]
  | cons e es ih =>
    intro l h
    rw [List.foldl_cons]
    have hlen : (appendTrim cap l e).length ≤ cap := by
      rw [appendTrim_eq_lastN, lastN_length]
      omega
    rw [ih _ hlen, appendTrim_eq_lastN, lastN_lastN_append]
    congr 1
    rw [List.append_assoc, List.singleton_append]

theorem drop_range1 (k s n : Nat) :
    (List.range' s n).drop k = List.range' (s + k) (n - k) := by
  induction k generalizing s n with
  | zero => simp
  | succ k ih =>
    cases n with
    | zero => simp
    | succ m =>
      rw [List.range'_succ, List.drop_succ_cons, ih (s + 1) m]
      have h1 : s + 1 + k = s + (k + 1) := by omega
      have h2 : m - k = m + 1 - (k + 1) := by omega
      rw [h1, h2]

/-- C5 counterexample: the diary appends inside `GenyBrain.generate_reply`
(geny/geny_brain.py, e.g. the trait-development and reflection entries) do
not trim: appending through that path to a diary already at the cap of
1000 leaves 1001 stored entries, violating the claimed `length ≤ cap`
invariant for "every" append. -/
theorem C5_counterexample_untrimmed_brain_append :
    (brainDiaryAppend (List.replicate 1000 (0 : ℕ)) 0).length = 1001 ∧
    ¬(brainDiaryAppend (List.replicate 1000 (0 : ℕ)) 0).length ≤ 1000 := by
  have h : (brainDiaryAppend (List.replicate 1000 (0 : ℕ)) 0).length = 1001 := by
    rw [brainDiaryAppend, List.length_append, List.length_replicate,
      List.length_singleton]
  refine ⟨h, ?_⟩
  rw [h]
  omega

/-- C5 (amended): every append performed through the trimmed paths
(`/chat` auto-diary and exploration loop with cap 1000,
`/world/diary/add` with cap 1000, `/world/feelings/add` with cap 500)
retains exactly the `cap` most recent entries in order: one step equals
`lastN cap` of the appended list and never exceeds `cap`; a sequence of
such appends from empty stores exactly the last `cap` entries; appending
entries 1..1005 sequentially with cap 1000 leaves exactly entries 6..1005
in order.  (The untrimmed diary appends inside `GenyBrain.generate_reply`
are excluded: they do not evict.) -/
theorem C5_bounded_sequences (α : Type) :
    (∀ (cap : Nat) (l : List α) (e : α),
      appendTrim cap l e = lastN cap (l ++ [e]) ∧
      (appendTrim cap l e).length ≤ cap) ∧
    (∀ (cap : Nat) (es : List α),
      es.foldl (appendTrim cap) [] = lastN cap es ∧
      (es.foldl (appendTrim cap) []).length = min cap es.length) ∧
    (List.range' 1 1005).foldl (appendTrim 1000) [] = List.range' 6 1000 := by
  have hfold : ∀ (cap : Nat) (es : List α),
      es.foldl (appendTrim cap) [] = lastN cap es := by
    intro cap es
    have h := foldl_appendTrim cap es [] (by simp)
    rwa [List.nil_append] at h
  refine ⟨?_, ?_, ?_⟩
  · intro cap l e
    refine ⟨appendTrim_eq_lastN cap l e, ?_⟩
    rw [appendTrim_eq_lastN, lastN_length]
    omega
  · intro cap es
    refine ⟨hfold cap es, ?_⟩
    rw [hfold cap es, lastN_length]
  · have h := foldl_appendTrim 1000 (List.range' 1 1005) [] (by simp)
    rw [List.nil_append] at h
    rw [h]
    unfold lastN
    rw [List.length_range', drop_range1]

/-- C9: with every caller's read-modify-write append serialized by the
single shared brain lock, any interleaving of N concurrent appends is some
sequential order of the N atomic append-then-trim steps; for every such
order, starting from an empty log with N ≤ 1000, exactly the N entries are
present afterwards, in that serialization order — no append is lost. -/
theorem C9_concurrent_appends_not_lost (α : Type) (entries : List α)
    (h : entries.length ≤ 1000) :
    entries.foldl (appendTrim 1000) [] = entries ∧
    (entries.foldl (appendTrim 1000) []).length = entries.length ∧
    (∀ e ∈ entries, e ∈ entries.foldl (appendTrim 1000) []) := by
  have hfold := foldl_appendTrim 1000 entries [] (by simp)
  rw [List.nil_append] at hfold
  rw [hfold, lastN_of_le 1000 entries h]
  exact ⟨rfl, rfl, fun e he => he⟩

/-- Witness for C9: three concurrent diary appends, serialized in the
order 10, 20, 30, all survive. -/
theorem C9_concurrent_appends_not_lost_witness :
    ([10, 20, 30] : List ℕ).foldl (appendTrim 1000) [] = [10, 20, 30] ∧
    (([10, 20, 30] : List ℕ).foldl (appendTrim 1000) []).length =
      ([10, 20, 30] : List ℕ).length ∧
    (∀ e ∈ ([10, 20, 30] : List ℕ),
      e ∈ ([10, 20, 30] : List ℕ).foldl (appendTrim 1000) []) :=
  C9_concurrent_appends_not_lost ℕ [10, 20, 30] (by norm_num)

/-! ## Virtual age (`geny/geny_brain.py`, `GenyBrain.get_virtual_age`)

Times are whole seconds (`Int`); Python's floor division `//` and modulo
`%` on integers coincide with Lean's `Int` `/` and `%` (Euclidean, equal
to floor for the positive divisors used here).  `timedelta.days` is
`delta // 86400` and `timedelta.seconds` is `delta % 86400`. -/

/-- The dictionary returned by `get_virtual_age` (the `since` field holds
the parsed birthdate). -/
structure VirtualAge where
  years : Int
  days : Int
  hours : Int
  minutes : Int
  since : Int
  deriving DecidableEq, Repr

/-- `GenyBrain.get_virtual_age`: read the birthdate from the world section
(defaulting to `now` when absent), take `delta = now - birth`, and report
`years = delta.days // 365`, `days = delta.days % 365`,
`hours = delta.seconds // 3600`, `minutes = (delta.seconds % 3600) // 60`.
No virtual-time scale appears anywhere in this function. -/
def getVirtualAge (birthdate : Option Int) (now : Int) : VirtualAge :=
  let birth := birthdate.getD now
  let delta := now - birth
  let d := delta / 86400
  let s := delta % 86400
  ⟨d / 365, d % 365, s / 3600, (s % 3600) / 60, birth⟩

/-- The computation the claim asserts, following the spec's words for the
refinement comparison: `virtual_elapsed = (now_real - birthdate) * scale`,
a non-positive scale replaced by the minimum positive fallback 0.1, then
the same years/days/hours/minutes decomposition of the scaled elapsed
time. -/
def getVirtualAgeSpec (birthdate : Option Int) (now : Int) (scale : ℚ) :
    VirtualAge :=
  let birth := birthdate.getD now
  let scaleEff : ℚ := if scale ≤ 0 then 1 / 10 else scale
  let virt : Int := ⌊((now - birth : Int) : ℚ) * scaleEff⌋
  let d := virt / 86400
  let s := virt % 86400
  ⟨d / 365, d % 365, s / 3600, (s % 3600) / 60, birth⟩

/-- The elapsed time (in seconds, at the minute resolution reported)
reconstructed from a `get_virtual_age` breakdown. -/
def elapsedSeconds (va : VirtualAge) : Int :=
  (va.years * 365 + va.days) * 86400 + va.hours * 3600 + va.minutes * 60

/-- C6 counterexample: `get_virtual_age` applies no virtual-time scale.
With birthdate 0 and now = 31536000 s (exactly 365 days), the code
reports 1 year, while the claimed `(now_real - birthdate) * scale`
computation with scale 2 reports 2 years; the two disagree. -/
theorem C6_counterexample_scale_not_applied :
    (getVirtualAge (some 0) 31536000).years = 1 ∧
    (getVirtualAgeSpec (some 0) 31536000 2).years = 2 ∧
    getVirtualAge (some 0) 31536000 ≠ getVirtualAgeSpec (some 0) 31536000 2
    := by
  have hv : getVirtualAge (some 0) 31536000 = ⟨1, 0, 0, 0, 0⟩ := by decide
  have hs : getVirtualAgeSpec (some 0) 31536000 2 = ⟨2, 0, 0, 0, 0⟩ := by
    unfold getVirtualAgeSpec
    norm_num
  rw [hv, hs]
  refine ⟨rfl, rfl, by decide⟩

/-- C6 (amended): `get_virtual_age` is a pure, total function of
(birthdate, now) alone — no scale enters; it decomposes the real elapsed
time `now - birth` into years (of 365 days), days, hours and minutes, each
component in range; the reconstruction recovers the elapsed time rounded
down to a whole minute, so two successive calls with a non-decreasing
clock report non-decreasing elapsed time; a missing birthdate defaults to
`now` (age zero), and no division by zero can occur (all divisors are the
fixed constants 86400, 365, 3600, 60). -/
theorem C6_virtual_age_pure_unscaled :
    (∀ (birth now : Int),
      elapsedSeconds (getVirtualAge (some birth) now) =
        (now - birth) - (now - birth) % 60 ∧
      0 ≤ (getVirtualAge (some birth) now).days ∧
      (getVirtualAge (some birth) now).days < 365 ∧
      0 ≤ (getVirtualAge (some birth) now).hours ∧
      (getVirtualAge (some birth) now).hours < 24 ∧
      0 ≤ (getVirtualAge (some birth) now).minutes ∧
      (getVirtualAge (some birth) now).minutes < 60) ∧
    (∀ (birth n1 n2 : Int), n1 ≤ n2 →
      elapsedSeconds (getVirtualAge (some birth) n1) ≤
        elapsedSeconds (getVirtualAge (some birth) n2)) ∧
    (∀ now : Int, getVirtualAge none now = ⟨0, 0, 0, 0, now⟩) := by
  have hdec : ∀ (birth now : Int),
      elapsedSeconds (getVirtualAge (some birth) now) =
        (now - birth) - (now - birth) % 60 := by
    intro birth now
    simp only [getVirtualAge, elapsedSeconds, Option.getD_some]
    omega
  refine ⟨?_, ?_, ?_⟩
  · intro birth now
    refine ⟨hdec birth now, ?_, ?_, ?_, ?_, ?_, ?_⟩ <;>
      simp only [getVirtualAge, Option.getD_some] <;> omega
  · intro birth n1 n2 h
    rw [hdec birth n1, hdec birth n2]
    omega
  · intro now
    simp [getVirtualAge]

/-- Witness for C6: with birthdate 0, the elapsed time reported at
now = 86400 does not exceed the one reported at now = 172800. -/
theorem C6_virtual_age_pure_unscaled_witness :
    elapsedSeconds (getVirtualAge (some 0) 86400) ≤
      elapsedSeconds (getVirtualAge (some 0) 172800) :=
  C6_virtual_age_pure_unscaled.2.1 0 86400 172800 (by norm_num)

/-! ## The `/chat` endpoint (`backend/main.py`, `chat`)

The default path is modelled (no inline web search, no RAG augmentation —
both are opt-in detours that end in the same coercion and error-mapping
tail).  The awaited `brain.generate_reply` call and the best-effort
persistence steps are abstracted by an `Except` outcome: `Except.error`
is any exception raised inside the handler's `try` block, `Except.ok`
carries the reply value (`none` models a `None` reply). -/

/-- Response bodies the handler can produce. -/
inductive ChatBody
  | ok (reply : String)
  | errorReply (reply : String)
  | rateLimited (stats : RLStats)
  deriving DecidableEq, Repr

/-- An HTTP response: status code and JSON body shape. -/
structure ChatResponse where
  status : Nat
  body : ChatBody
  deriving DecidableEq, Repr

/-- Externally observable side effects of one `/chat` request. -/
structure ChatEffects where
  upstreamAttempted : Bool
  interactionRecorded : Bool
  worldMutated : Bool
  deriving DecidableEq, Repr

/-- No effect at all (the rate-limited early return). -/
def noEffects : ChatEffects := ⟨false, false, false⟩

/-- The admitted path consults the brain, persists the interaction and
attempts world mutations. -/
def admittedEffects : ChatEffects := ⟨true, true, true⟩

/-- The safe-fallback reply installed by the handler's coercion step. -/
def chatFallbackMsg : String :=
  "BRAIN - Sorry, I couldn't generate a reply right now."

/-- The body text of the handler's blanket `except Exception` branch. -/
def chatErrorMsg : String := "Sorry, something went wrong."

/-- The coercion step: `None` or a blank string becomes the safe
fallback. -/
def coerceReply : Option String → String
  | none => chatFallbackMsg
  | some s => if trimChars s.data = [] then chatFallbackMsg else s

/-- The `/chat` handler: rate-limit check with early 429 (body built from
`stats`), then the reply coercion, then the `[Gemini 401]` / `[Gemini
error]` mapping — whose `raise HTTPException(502/503)` statements are
caught by the handler's own `except Exception`, which returns HTTP 200
with the generic error body.  Returns the response, the limiter
afterwards, and the observed effects. -/
def chatHandler (rl : RateLimiter) (now : ℚ)
    (brainOutcome : Except String (Option String)) :
    ChatResponse × RateLimiter × ChatEffects :=
  let a := rl.allow "/chat" now
  if a.1 = false then
    let st := a.2.stats "/chat" now
    (⟨429, ChatBody.rateLimited st.1⟩, st.2, noEffects)
  else
    match brainOutcome with
    | Except.error _ =>
      (⟨200, ChatBody.errorReply chatErrorMsg⟩, a.2, admittedEffects)
    | Except.ok r =>
      let reply := coerceReply r
      if charsPrefixOf "[Gemini 401]".data reply.data then
        (⟨200, ChatBody.errorReply chatErrorMsg⟩, a.2, admittedEffects)
      else if charsPrefixOf "[Gemini error]".data reply.data then
        (⟨200, ChatBody.errorReply chatErrorMsg⟩, a.2, admittedEffects)
      else (⟨200, ChatBody.ok reply⟩, a.2, admittedEffects)

theorem prune_prune (w : ℚ) (l : List ℚ) (now : ℚ) :
    prune w (prune w l now) now = prune w l now := by
  unfold prune
  induction l with
  | nil => rfl
  | cons x xs ih =>
    rw [List.dropWhile_cons]
    by_cases h : x < now - w
    · rw [if_pos (by simpa using h)]
      exact ih
    · rw [if_neg (by simpa using h), List.dropWhile_cons,
        if_neg (by simpa using h)]

theorem coerceReply_nonblank (r : Option String) :
    coerceReply r ≠ "" ∧ trimChars (coerceReply r).data ≠ [] := by
  match r with
  | none => exact ⟨by decide, by decide⟩
  | some s =>
    by_cases h : trimChars s.data = []
    · simp only [coerceReply, if_pos h]
      exact ⟨by decide, by decide⟩
    · simp only [coerceReply, if_neg h]
      exact ⟨fun hs => h (by rw [hs]; decide), h⟩

/-- C4: the `/chat` error statuses as implemented.  At the failing input —
an admitted request whose upstream reply carries the `[Gemini 401]` auth
marker — the handler reaches its `raise HTTPException(502)`, but the
exception is caught by the handler's own blanket `except Exception`, so
the client receives HTTP 200 with body
`{"reply": "Sorry, something went wrong.", "status": "error"}` instead of
the specified 502; likewise `[Gemini error]` replies yield HTTP 200
instead of 503.  The 429 rate-limited shape (status plus
limit/count/window/reset stats body) and the 200 `{reply, status: "ok"}`
shape are produced as specified. -/
theorem C4_chat_error_statuses :
    ((chatHandler (RateLimiter.mk0 4 3600) 0
        (Except.ok (some "[Gemini 401] API key not valid"))).1 =
      ⟨200, ChatBody.errorReply chatErrorMsg⟩) ∧
    ((chatHandler (RateLimiter.mk0 4 3600) 0
        (Except.ok (some "[Gemini error] Circuit open - upstream unavailable"))).1
      = ⟨200, ChatBody.errorReply chatErrorMsg⟩) ∧
    ((chatHandler ⟨1, 3600, fun _ => [0]⟩ 0 (Except.ok (some "hi"))).1 =
      ⟨429, ChatBody.rateLimited ⟨1, 1, 3600, 3600⟩⟩) ∧
    ((chatHandler (RateLimiter.mk0 4 3600) 0 (Except.ok (some "hi there"))).1
      = ⟨200, ChatBody.ok "hi there"⟩) := by
  refine ⟨?_, ?_, ?_, ?_⟩
  · norm_num [chatHandler, RateLimiter.allow, RateLimiter.mk0, prune,
      RateLimiter.setKey, coerceReply]
    decide
  · norm_num [chatHandler, RateLimiter.allow, RateLimiter.mk0, prune,
      RateLimiter.setKey, coerceReply]
    decide
  · norm_num [chatHandler, RateLimiter.allow, RateLimiter.stats, prune,
      RateLimiter.setKey]
  · norm_num [chatHandler, RateLimiter.allow, RateLimiter.mk0, prune,
      RateLimiter.setKey, coerceReply]
    decide

/-- C8: for every admitted request and every outcome of the brain call —
a reply string, `None`, a blank reply, an upstream error string, or a
raised exception — the handler returns an HTTP 200 response whose reply
field is a non-empty, non-blank string; a raised exception is absorbed by
the blanket `except Exception` into the fixed error body, so no exception
propagates to the caller. -/
theorem C8_chat_reply_nonempty_no_throw :
    (∀ (rl : RateLimiter) (now : ℚ) (o : Except String (Option String)),
      (rl.allow "/chat" now).1 = true →
      ∃ r : String,
        (chatHandler rl now o).1.status = 200 ∧
        ((chatHandler rl now o).1.body = ChatBody.ok r ∨
         (chatHandler rl now o).1.body = ChatBody.errorReply r) ∧
        ¬r = "" ∧ ¬trimChars r.data = []) ∧
    (∀ (rl : RateLimiter) (now : ℚ) (e : String),
      (rl.allow "/chat" now).1 = true →
      (chatHandler rl now (Except.error e)).1 =
        ⟨200, ChatBody.errorReply chatErrorMsg⟩) := by
  have hmain : ∀ (rl : RateLimiter) (now : ℚ)
      (o : Except String (Option String)),
      (rl.allow "/chat" now).1 = true →
      ∃ r : String,
        (chatHandler rl now o).1.status = 200 ∧
        ((chatHandler rl now o).1.body = ChatBody.ok r ∨
         (chatHandler rl now o).1.body = ChatBody.errorReply r) ∧
        ¬r = "" ∧ ¬trimChars r.data = [] := by
    intro rl now o hallow
    have hcond : ¬((rl.allow "/chat" now).1 = false) := by
      rw [hallow]
      exact fun h => Bool.noConfusion h
    cases o with
    | error e =>
      refine ⟨chatErrorMsg, ?_, Or.inr ?_, by decide, by decide⟩ <;>
        simp only [chatHandler, if_neg hcond]
    | ok r =>
      have hcr := coerceReply_nonblank r
      simp only [chatHandler, if_neg hcond]
      by_cases h1 :
          charsPrefixOf "[Gemini 401]".data (coerceReply r).data = true
      · rw [if_pos h1]
        exact ⟨chatErrorMsg, rfl, Or.inr rfl, by decide, by decide⟩
      · rw [if_neg h1]
        by_cases h2 :
            charsPrefixOf "[Gemini error]".data (coerceReply r).data = true
        · rw [if_pos h2]
          exact ⟨chatErrorMsg, rfl, Or.inr rfl, by decide, by decide⟩
        · rw [if_neg h2]
          exact ⟨coerceReply r, rfl, Or.inl rfl, hcr.1, hcr.2⟩
  refine ⟨hmain, ?_⟩
  intro rl now e hallow
  have hcond : ¬((rl.allow "/chat" now).1 = false) := by
    rw [hallow]
    exact fun h => Bool.noConfusion h
  simp only [chatHandler, if_neg hcond]

/-- Witness for C8: a fresh limiter admits the request, and with the
brain replying "BRAIN - hi" the handler returns a 200 response carrying a
non-blank reply. -/
theorem C8_chat_reply_nonempty_no_throw_witness :
    ((RateLimiter.mk0 4 3600).allow "/chat" 0).1 = true ∧
    (∃ r : String,
      (chatHandler (RateLimiter.mk0 4 3600) 0
        (Except.ok (some "BRAIN - hi"))).1.status = 200 ∧
      ((chatHandler (RateLimiter.mk0 4 3600) 0
          (Except.ok (some "BRAIN - hi"))).1.body = ChatBody.ok r ∨
       (chatHandler (RateLimiter.mk0 4 3600) 0
          (Except.ok (some "BRAIN - hi"))).1.body = ChatBody.errorReply r) ∧
      ¬r = "" ∧ ¬trimChars r.data = []) :=
  ⟨by norm_num [RateLimiter.allow, RateLimiter.mk0, prune],
   C8_chat_reply_nonempty_no_throw.1 (RateLimiter.mk0 4 3600) 0
     (Except.ok (some "BRAIN - hi"))
     (by norm_num [RateLimiter.allow, RateLimiter.mk0, prune])⟩

/-- C10: when the limiter denies the request the handler returns the 429
response before anything else runs: the brain is not consulted, nothing is
persisted, no world section is touched, and the only limiter change is the
lazy purge of the "/chat" window (other scopes and the configuration are
untouched). -/
theorem C10_rate_limited_frame
    (rl : RateLimiter) (now : ℚ) (o : Except String (Option String))
    (hl : 0 < rl.limit) (hdeny : (rl.allow "/chat" now).1 = false) :
    (chatHandler rl now o).1 =
      ⟨429, ChatBody.rateLimited
        (((rl.allow "/chat" now).2).stats "/chat" now).1⟩ ∧
    (chatHandler rl now o).2.2 = noEffects ∧
    (chatHandler rl now o).2.1.hits "/chat" =
      prune rl.window (rl.hits "/chat") now ∧
    (∀ k, ¬k = "/chat" → (chatHandler rl now o).2.1.hits k = rl.hits k) ∧
    (chatHandler rl now o).2.1.limit = rl.limit ∧
    (chatHandler rl now o).2.1.window = rl.window := by
  have hstate := (allow_spec rl "/chat" now hl).2.2 hdeny
  simp only [chatHandler, if_pos hdeny]
  refine ⟨trivial, trivial, ?_, ?_, ?_, ?_⟩
  · simp only [RateLimiter.stats, hstate, setKey_window, setKey_hits_self,
      setKey_limit]
    rw [prune_prune]
  · intro k hk
    simp only [RateLimiter.stats, hstate, RateLimiter.setKey]
    rw [if_neg hk, if_neg hk]
  · simp only [RateLimiter.stats, hstate, setKey_limit]
  · simp only [RateLimiter.stats, hstate, setKey_window]

/-- Witness for C10: a limiter with limit 1 whose "/chat" window already
holds one fresh timestamp denies the next request at time 0; the handler
answers 429 with no effects and only the purge applied. -/
theorem C10_rate_limited_frame_witness :
    0 < (RateLimiter.mk 1 3600 (fun _ => [0])).limit ∧
    ((RateLimiter.mk 1 3600 (fun _ => [0])).allow "/chat" 0).1 = false ∧
    ((chatHandler (RateLimiter.mk 1 3600 (fun _ => [0])) 0
        (Except.ok (some "hi"))).2.2 = noEffects) :=
  ⟨by norm_num,
   by norm_num [RateLimiter.allow, prune],
   (C10_rate_limited_frame (RateLimiter.mk 1 3600 (fun _ => [0])) 0
      (Except.ok (some "hi")) (by norm_num)
      (by norm_num [RateLimiter.allow, prune])).2.1⟩

end Geny
